import Mathlib

/-!
Shallow embedding of the foodhunt order/inventory workflow.

The client side (src/client/src/components/map-component.tsx) is modelled as
pure functions over explicit state: the product list is passed in and the new
list returned; network requests are modelled by response arguments
(`Option` = success/failure) and, where the spec counts requests, the number
of requests issued is returned alongside the new state.  The server login
route (Express `userRouter.post /login`) is modelled with the database lookup
and the bcrypt comparison as function parameters.  JavaScript numbers on the
quantity/price fields are modelled as `Int`.
-/

/-- A product as held in the client catalog (`interface Product` in
map-component.tsx).  `availableQuantity` is the server-authoritative stock;
`quantity` is the client-local desired purchase amount. -/
structure Product where
  id : String
  name : String
  originalPrice : Int
  discountedPrice : Int
  discountPercentage : Int
  availableQuantity : Int
  quantity : Int
deriving DecidableEq

/-- A category as held by the client (`interface Category`). -/
structure Category where
  id : Option String
  name : String
  emoji : Option String
  product_ids : Option (List String)
deriving DecidableEq

/-- The per-entry effect of `handleDecrement`: the arrow body of
`prev.map((p) => p._id === clicked._id && p.quantity > 1 ? {...p, quantity: p.quantity - 1} : p)`. -/
def decEntry (clicked p : Product) : Product :=
  if p.id = clicked.id ∧ 1 < p.quantity then { p with quantity := p.quantity - 1 } else p

/-- The per-entry effect of `handleIncrement`: the arrow body of
`prev.map((p) => p._id === clicked._id && p.quantity < p.availableQuantity ? {...p, quantity: p.quantity + 1} : p)`. -/
def incEntry (clicked p : Product) : Product :=
  if p.id = clicked.id ∧ p.quantity < p.availableQuantity then { p with quantity := p.quantity + 1 } else p

/-- `handleDecrement` from map-component.tsx: maps `decEntry` over the
previous product list. -/
def handleDecrement (clicked : Product) (prev : List Product) : List Product :=
  prev.map (decEntry clicked)

/-- `handleIncrement` from map-component.tsx: maps `incEntry` over the
previous product list. -/
def handleIncrement (clicked : Product) (prev : List Product) : List Product :=
  prev.map (incEntry clicked)

/-- One user action on the quantity buttons. -/
inductive CartOp where
  | inc (clicked : Product)
  | dec (clicked : Product)
deriving DecidableEq

/-- Apply one quantity-button action to the product list. -/
def applyOp (l : List Product) (op : CartOp) : List Product :=
  match op with
  | CartOp.inc c => handleIncrement c l
  | CartOp.dec c => handleDecrement c l

/-- Apply a sequence of quantity-button actions, oldest first. -/
def applyOps (l : List Product) (ops : List CartOp) : List Product :=
  ops.foldl applyOp l

/-- All fields other than `quantity` agree. -/
def sameExceptQty (p q : Product) : Prop :=
  p.id = q.id ∧ p.name = q.name ∧ p.originalPrice = q.originalPrice ∧
  p.discountedPrice = q.discountedPrice ∧ p.discountPercentage = q.discountPercentage ∧
  p.availableQuantity = q.availableQuantity

lemma forallTwo_map_self {α : Type} (f : α → α) (R : α → α → Prop)
    (h : ∀ a, R a (f a)) : ∀ l : List α, List.Forall₂ R l (l.map f) := by
  intro l
  induction l with
  | nil => exact List.Forall₂.nil
  | cons a t ih => exact List.Forall₂.cons (h a) ih

lemma incEntry_quantity_le (c p : Product) :
    (incEntry c p).quantity ≤ max p.quantity p.availableQuantity := by
  unfold incEntry
  split
  · next h => exact le_trans (Int.add_one_le_iff.mpr h.2) (le_max_right _ _)
  · exact le_max_left _ _

lemma incEntry_le_avail (c p : Product) (h : p.quantity ≤ p.availableQuantity) :
    (incEntry c p).quantity ≤ p.availableQuantity := by
  unfold incEntry
  split
  · next hc => exact Int.add_one_le_iff.mpr hc.2
  · exact h

lemma incEntry_noop_at_max (c p : Product) (h : p.quantity = p.availableQuantity) :
    incEntry c p = p := by
  have hne : ¬(p.id = c.id ∧ p.quantity < p.availableQuantity) := by
    rintro ⟨-, hlt⟩
    omega
  unfold incEntry
  rw [if_neg hne]

lemma decEntry_quantity_ge (c p : Product) :
    min p.quantity 1 ≤ (decEntry c p).quantity := by
  unfold decEntry
  split
  · next h =>
      obtain ⟨-, h2⟩ := h
      refine le_trans (min_le_right _ _) ?_
      show (1 : Int) ≤ p.quantity - 1
      omega
  · exact min_le_left _ _

lemma decEntry_ge_one (c p : Product) (h : 1 ≤ p.quantity) :
    1 ≤ (decEntry c p).quantity := by
  unfold decEntry
  split
  · next hc =>
      obtain ⟨-, h2⟩ := hc
      show (1 : Int) ≤ p.quantity - 1
      omega
  · exact h

lemma decEntry_noop_at_one (c p : Product) (h : p.quantity = 1) :
    decEntry c p = p := by
  have hne : ¬(p.id = c.id ∧ 1 < p.quantity) := by
    rintro ⟨-, hlt⟩
    omega
  unfold decEntry
  rw [if_neg hne]

lemma incEntry_ge_one (c p : Product) (h : 1 ≤ p.quantity) :
    1 ≤ (incEntry c p).quantity := by
  unfold incEntry
  split
  · next hc =>
      show (1 : Int) ≤ p.quantity + 1
      omega
  · exact h

lemma decEntry_quantity_le (c p : Product) :
    (decEntry c p).quantity ≤ p.quantity := by
  unfold decEntry
  split
  · show p.quantity - 1 ≤ p.quantity
    omega
  · exact le_refl _

lemma applyOp_preserves (P : Product → Prop)
    (hinc : ∀ c p, P p → P (incEntry c p)) (hdec : ∀ c p, P p → P (decEntry c p))
    (l : List Product) (op : CartOp) (hl : ∀ p ∈ l, P p) :
    ∀ q ∈ applyOp l op, P q := by
  intro q hq
  cases op with
  | inc c =>
      obtain ⟨p, hp, rfl⟩ := List.mem_map.mp hq
      exact hinc c p (hl p hp)
  | dec c =>
      obtain ⟨p, hp, rfl⟩ := List.mem_map.mp hq
      exact hdec c p (hl p hp)

lemma applyOps_preserves (P : Product → Prop)
    (hinc : ∀ c p, P p → P (incEntry c p)) (hdec : ∀ c p, P p → P (decEntry c p)) :
    ∀ (ops : List CartOp) (l : List Product), (∀ p ∈ l, P p) →
      ∀ q ∈ applyOps l ops, P q := by
  intro ops
  induction ops with
  | nil => intro l hl q hq
           exact hl q hq
  | cons op rest ih =>
      intro l hl q hq
      exact ih (applyOp l op) (applyOp_preserves P hinc hdec l op hl) q hq

/-- C1: `handleIncrement` never raises any entry's `quantity` above its
`availableQuantity` (and is a no-op on entries already at
`quantity = availableQuantity`); `handleDecrement` never lowers any entry's
`quantity` below 1 (and is a no-op on entries at `quantity = 1`); and from any
list in which every `quantity` is at least 1, every `quantity` stays at least
1 after any sequence of increment/decrement actions. -/
theorem increment_decrement_bounds :
    (∀ (c : Product) (l : List Product),
      List.Forall₂ (fun p q =>
        q.quantity ≤ max p.quantity p.availableQuantity ∧
        (p.quantity ≤ p.availableQuantity → q.quantity ≤ p.availableQuantity) ∧
        (p.quantity = p.availableQuantity → q = p)) l (handleIncrement c l)) ∧
    (∀ (c : Product) (l : List Product),
      List.Forall₂ (fun p q =>
        min p.quantity 1 ≤ q.quantity ∧
        (1 ≤ p.quantity → 1 ≤ q.quantity) ∧
        (p.quantity = 1 → q = p)) l (handleDecrement c l)) ∧
    (∀ (l : List Product) (ops : List CartOp), (∀ p ∈ l, 1 ≤ p.quantity) →
      ∀ q ∈ applyOps l ops, 1 ≤ q.quantity) := by
  refine ⟨?_, ?_, ?_⟩
  · intro c l
    exact forallTwo_map_self (incEntry c) _
      (fun p => ⟨incEntry_quantity_le c p, incEntry_le_avail c p, incEntry_noop_at_max c p⟩) l
  · intro c l
    exact forallTwo_map_self (decEntry c) _
      (fun p => ⟨decEntry_quantity_ge c p, decEntry_ge_one c p, decEntry_noop_at_one c p⟩) l
  · intro l ops hl
    exact applyOps_preserves (fun p => 1 ≤ p.quantity)
      (fun c p => incEntry_ge_one c p) (fun c p => decEntry_ge_one c p) ops l hl

/-- Sample product used to instantiate universally quantified theorems. -/
def pEx : Product :=
  { id := "p1", name := "Pizza", originalPrice := 150, discountedPrice := 100,
    discountPercentage := 33, availableQuantity := 5, quantity := 1 }

/-- Witness for C1 at a concrete list and operation sequence. -/
theorem increment_decrement_bounds_witness :
    (∀ p ∈ [pEx], 1 ≤ p.quantity) ∧
    (∀ q ∈ applyOps [pEx] [CartOp.inc pEx, CartOp.dec pEx, CartOp.dec pEx], 1 ≤ q.quantity) :=
  ⟨by decide, increment_decrement_bounds.2.2 [pEx]
      [CartOp.inc pEx, CartOp.dec pEx, CartOp.dec pEx] (by decide)⟩

/-- C7: increment and decrement touch at most the `quantity` field, and only
on entries whose identifier equals the clicked identifier; every entry with a
different identifier is returned exactly unchanged (the lists are related
entrywise, hence also have the same length). -/
theorem increment_decrement_frame (c : Product) (l : List Product) :
    List.Forall₂ (fun p q => sameExceptQty p q ∧ (p.id ≠ c.id → q = p)) l (handleIncrement c l) ∧
    List.Forall₂ (fun p q => sameExceptQty p q ∧ (p.id ≠ c.id → q = p)) l (handleDecrement c l) := by
  constructor
  · refine forallTwo_map_self (incEntry c) _ (fun p => ⟨?_, ?_⟩) l
    · unfold incEntry
      split
      · exact ⟨rfl, rfl, rfl, rfl, rfl, rfl⟩
      · exact ⟨rfl, rfl, rfl, rfl, rfl, rfl⟩
    · intro hne
      unfold incEntry
      rw [if_neg (fun hc => hne hc.1)]
  · refine forallTwo_map_self (decEntry c) _ (fun p => ⟨?_, ?_⟩) l
    · unfold decEntry
      split
      · exact ⟨rfl, rfl, rfl, rfl, rfl, rfl⟩
      · exact ⟨rfl, rfl, rfl, rfl, rfl, rfl⟩
    · intro hne
      unfold decEntry
      rw [if_neg (fun hc => hne hc.1)]

/-- The tagging `(p) => ({ ...p, quantity: 1 })` applied to every fetched
product in `fetchProducts` and `fetchProductsByProductIds`. -/
def tagQty (p : Product) : Product :=
  { p with quantity := 1 }

/-- `fetchProducts` from map-component.tsx, over explicit state.
`hasUserId` models the truthiness of `_id`; `resp pref` is the outcome of the
`GET /products?name=pref&userId=_id` request (`none` = the request failed and
the `catch` branch logged it).  Returns the new `productList` together with
the number of network requests issued.  When the guard
`!userPreferences?.length || !_id` fires, the function returns early and the
state is unchanged; otherwise the loop awaits one request per preference term,
appends the tagged results of the successful ones, and
`setProductList(allFetched)` replaces the list unconditionally. -/
def fetchProducts (userPreferences : List String) (hasUserId : Bool)
    (resp : String → Option (List Product)) (productList : List Product) :
    List Product × Nat :=
  if userPreferences.isEmpty ∨ hasUserId = false then (productList, 0)
  else
    ((userPreferences.map (fun pref =>
        match resp pref with
        | some data => data.map tagQty
        | none => [])).flatten,
     userPreferences.length)

/-- `fetchProductsByProductIds` from map-component.tsx, over explicit state.
`resp` is the outcome of the single batched `GET /product-search` request.
Returns the new `productList` and the number of requests issued: an empty id
list short-circuits to `setProductList([])` with no request; otherwise one
request is made, and on failure the previous list is retained. -/
def fetchProductsByProductIds (ids : List String) (resp : Option (List Product))
    (productList : List Product) : List Product × Nat :=
  if ids.isEmpty then ([], 0)
  else
    match resp with
    | some data => (data.map tagQty, 1)
    | none => (productList, 1)

/-- `fetchCategories` from map-component.tsx: on success the category list is
replaced, on failure the previous list is retained. -/
def fetchCategories (resp : Option (List Category)) (foodCategories : List Category) :
    List Category :=
  match resp with
  | some data => data
  | none => foodCategories

/-- The pieces of component state touched by `fetchProductChip`. -/
structure ClientState where
  productList : List Product
  productsOfSelectedCategory : List Category
  selectedCategory : Option Category
deriving DecidableEq

/-- `fetchProductChip` from map-component.tsx: `resp` is the outcome of the
`GET /product-chips` request and `resp2` the outcome of the nested
`fetchProductsByProductIds` request made on the first returned category's
`product_ids`.  On failure nothing changes; on success with a non-empty list
the first category's products are loaded and it becomes the selected chip,
and the chip list is always replaced by the response data. -/
def fetchProductChip (resp : Option (List Category)) (resp2 : Option (List Product))
    (st : ClientState) : ClientState :=
  match resp with
  | none => st
  | some data =>
      match data with
      | [] => { st with productsOfSelectedCategory := [] }
      | first :: rest =>
          { productList :=
              (fetchProductsByProductIds (first.product_ids.getD []) resp2 st.productList).1,
            selectedCategory := some first,
            productsOfSelectedCategory := first :: rest }

/-- Sample products returned by the mocked preference request. -/
def pA : Product :=
  { id := "a1", name := "Margherita", originalPrice := 200, discountedPrice := 120,
    discountPercentage := 40, availableQuantity := 4, quantity := 2 }

def pB : Product :=
  { id := "b2", name := "Pepperoni", originalPrice := 250, discountedPrice := 150,
    discountPercentage := 40, availableQuantity := 3, quantity := 3 }

/-- Mock responses: the "pizza" request succeeds with two items, every other
request (in particular "sushi") fails. -/
def respEx : String → Option (List Product) :=
  fun s => if s = "pizza" then some [pA, pB] else none

/-- Mock response function under which every request fails. -/
def noResp : String → Option (List Product) :=
  fun _ => none

lemma flatten_over_successes (resp : String → Option (List Product)) :
    ∀ prefs : List String,
      (prefs.map (fun pref =>
        match resp pref with
        | some data => data.map tagQty
        | none => [])).flatten =
      ((prefs.filterMap resp).map (fun data => data.map tagQty)).flatten := by
  intro prefs
  induction prefs with
  | nil => rfl
  | cons a t ih =>
      cases h : resp a with
      | none => simp [List.filterMap_cons, h, ih]
      | some data => simp [List.filterMap_cons, h, ih]

/-- C4: with a non-empty preference list and a truthy user id, the preference
fetch issues exactly one request per term, and the resulting catalog is the
concatenation, in term order, of the results of exactly the successful
requests, each tagged with `quantity = 1`; in particular with preferences
`["pizza","sushi"]` where the first request yields two items and the second
fails, the catalog is exactly those two items. -/
theorem preference_fetch_partial_results :
    (∀ (prefs : List String) (resp : String → Option (List Product))
       (st : List Product), prefs ≠ [] →
      fetchProducts prefs true resp st =
        (((prefs.filterMap resp).map (fun data => data.map tagQty)).flatten, prefs.length)) ∧
    fetchProducts ["pizza", "sushi"] true respEx [] = ([tagQty pA, tagQty pB], 2) := by
  constructor
  · intro prefs resp st hne
    unfold fetchProducts
    rw [if_neg (by simp [hne])]
    exact Prod.ext (flatten_over_successes resp prefs) rfl
  · decide

/-- Witness for C4 at a concrete non-empty preference list. -/
theorem preference_fetch_partial_results_witness :
    (["pizza"] : List String) ≠ [] ∧
    fetchProducts ["pizza"] true respEx [] =
      (((["pizza"].filterMap respEx).map (fun data => data.map tagQty)).flatten,
       (["pizza"] : List String).length) :=
  ⟨by decide, preference_fetch_partial_results.1 ["pizza"] respEx [] (by decide)⟩

/-- C8: for the empty product-id list, the batch lookup issues no network
request (request count 0) and sets the catalog to the empty list. -/
theorem empty_ids_no_request_empty_catalog
    (resp : Option (List Product)) (prev : List Product) :
    fetchProductsByProductIds [] resp prev = ([], 0) :=
  rfl

/-- C5 counterexample: a preference fetch (non-empty preference list, truthy
user id) in which the single request fails replaces the non-empty prior
catalog `[pEx]` with the empty list, so a fetch in which every request fails
does clear the previously displayed product list. -/
theorem fetch_failure_clears_catalog_cex :
    (fetchProducts ["pizza"] true noResp [pEx]).1 = [] ∧
    (fetchProducts ["pizza"] true noResp [pEx]).1 ≠ [pEx] := by
  constructor
  · rfl
  · decide

/-- C5 amended: the category fetch, the batch product lookup on a non-empty
id list, and the chip fetch each leave all prior state unchanged when their
request fails; the preference fetch, however, catches and skips individual
failures but then unconditionally replaces the catalog with the concatenation
of the successful results, so a preference fetch in which every request fails
sets the catalog to the empty list. -/
theorem fetch_failure_state_retention :
    (∀ prev : List Category, fetchCategories none prev = prev) ∧
    (∀ (ids : List String) (prev : List Product), ids ≠ [] →
      fetchProductsByProductIds ids none prev = (prev, 1)) ∧
    (∀ (resp2 : Option (List Product)) (st : ClientState),
      fetchProductChip none resp2 st = st) ∧
    (∀ (prefs : List String) (st : List Product), prefs ≠ [] →
      (fetchProducts prefs true noResp st).1 = []) := by
  refine ⟨fun prev => rfl, ?_, fun resp2 st => rfl, ?_⟩
  · intro ids prev hne
    unfold fetchProductsByProductIds
    rw [if_neg (by simp [hne])]
  · intro prefs st hne
    unfold fetchProducts
    rw [if_neg (by simp [hne])]
    show (prefs.map (fun pref =>
        match noResp pref with
        | some data => data.map tagQty
        | none => [])).flatten = []
    induction prefs with
    | nil => rfl
    | cons a t ih => simp [noResp, ih]

/-- Witness for C5 (amended) at concrete inputs. -/
theorem fetch_failure_state_retention_witness :
    (["x", "y"] : List String) ≠ [] ∧
    fetchProductsByProductIds ["x", "y"] none [pEx] = ([pEx], 1) :=
  ⟨by decide, fetch_failure_state_retention.2.1 ["x", "y"] [pEx] (by decide)⟩

/-- A product whose server stock is zero, as returned by a fetch. -/
def pZero : Product :=
  { id := "z0", name := "SoldOut", originalPrice := 90, discountedPrice := 60,
    discountPercentage := 33, availableQuantity := 0, quantity := 7 }

/-- C6 counterexample: a batch lookup that returns a product with
`availableQuantity = 0` tags it with `quantity = 1`, so immediately after the
fetch the catalog contains an entry violating `quantity ≤ availableQuantity`. -/
theorem fetch_quantity_invariant_cex :
    ∃ p ∈ (fetchProductsByProductIds ["z0"] (some [pZero]) []).1,
      ¬(p.quantity ≤ p.availableQuantity) := by
  decide

/-- The invariant the code actually maintains on catalog entries. -/
def qtyInv (p : Product) : Prop :=
  1 ≤ p.quantity ∧ p.quantity ≤ max p.availableQuantity 1

lemma tagQty_inv (p : Product) : qtyInv (tagQty p) :=
  ⟨le_refl 1, le_max_right _ _⟩

lemma mem_map_tagQty_inv {l fetched : List Product} (h : fetched = l.map tagQty) :
    ∀ q ∈ fetched, qtyInv q := by
  intro q hq
  rw [h] at hq
  obtain ⟨p, -, rfl⟩ := List.mem_map.mp hq
  exact tagQty_inv p

lemma incEntry_inv (c p : Product) (h : qtyInv p) : qtyInv (incEntry c p) := by
  obtain ⟨h1, h2⟩ := h
  unfold incEntry
  split
  · next hc =>
      refine ⟨?_, ?_⟩
      · show (1 : Int) ≤ p.quantity + 1
        omega
      · show p.quantity + 1 ≤ max p.availableQuantity 1
        exact le_trans (Int.add_one_le_iff.mpr hc.2) (le_max_left _ _)
  · exact ⟨h1, h2⟩

lemma decEntry_avail_eq (c p : Product) :
    (decEntry c p).availableQuantity = p.availableQuantity := by
  unfold decEntry
  split
  · rfl
  · rfl

lemma decEntry_inv (c p : Product) (h : qtyInv p) : qtyInv (decEntry c p) := by
  refine ⟨decEntry_ge_one c p h.1, ?_⟩
  rw [decEntry_avail_eq]
  exact le_trans (decEntry_quantity_le c p) h.2

instance (p : Product) : Decidable (qtyInv p) := by
  unfold qtyInv
  infer_instance

/-- C6 amended: every catalog entry satisfies `1 ≤ quantity` and
`quantity ≤ max availableQuantity 1` — after either fetch (which tags entries
with `quantity = 1`, even when `availableQuantity = 0`) and after any sequence
of increment/decrement actions; the spec's bound `quantity ≤ availableQuantity`
holds exactly for entries with `availableQuantity ≥ 1`. -/
theorem catalog_quantity_invariant :
    (∀ (prefs : List String) (hid : Bool) (resp : String → Option (List Product))
       (st : List Product), (∀ p ∈ st, qtyInv p) →
      ∀ q ∈ (fetchProducts prefs hid resp st).1, qtyInv q) ∧
    (∀ (ids : List String) (resp : Option (List Product)) (prev : List Product),
      (∀ p ∈ prev, qtyInv p) →
      ∀ q ∈ (fetchProductsByProductIds ids resp prev).1, qtyInv q) ∧
    (∀ (l : List Product) (ops : List CartOp), (∀ p ∈ l, qtyInv p) →
      ∀ q ∈ applyOps l ops, qtyInv q) ∧
    (∀ p : Product, qtyInv p → 1 ≤ p.availableQuantity →
      p.quantity ≤ p.availableQuantity) := by
  refine ⟨?_, ?_, ?_, ?_⟩
  · intro prefs hid resp st hst q hq
    unfold fetchProducts at hq
    rw [apply_ite Prod.fst] at hq
    split at hq
    · exact hst q hq
    · obtain ⟨sub, hsub, hq2⟩ := List.mem_flatten.mp hq
      obtain ⟨pref, -, rfl⟩ := List.mem_map.mp hsub
      cases h : resp pref with
      | none => rw [h] at hq2
                cases hq2
      | some data =>
          rw [h] at hq2
          obtain ⟨p, -, rfl⟩ := List.mem_map.mp hq2
          exact tagQty_inv p
  · intro ids resp prev hprev q hq
    unfold fetchProductsByProductIds at hq
    rw [apply_ite Prod.fst] at hq
    split at hq
    · cases hq
    · cases resp with
      | none => exact hprev q hq
      | some data =>
          obtain ⟨p, -, rfl⟩ := List.mem_map.mp hq
          exact tagQty_inv p
  · intro l ops hl
    exact applyOps_preserves qtyInv incEntry_inv decEntry_inv ops l hl
  · intro p hp hge
    exact le_trans hp.2 (max_le (le_refl _) hge)

/-- Witness for C6 (amended) at a concrete list and operation sequence. -/
theorem catalog_quantity_invariant_witness :
    (∀ p ∈ [pEx], qtyInv p) ∧
    (∀ q ∈ applyOps [pEx] [CartOp.inc pEx, CartOp.dec pEx], qtyInv q) :=
  ⟨by decide, catalog_quantity_invariant.2.2.1 [pEx]
      [CartOp.inc pEx, CartOp.dec pEx] (by decide)⟩

/-- The body of the `POST /orders` request built by `handlePlaceOrder`. -/
structure OrderPayload where
  bookedById : String
  productId : String
  quantity : Int
  price : Int
  paymentMethod : String
deriving DecidableEq

/-- The order request payload construction from `handlePlaceOrder`. -/
def orderPayload (userId : String) (item : Product) : OrderPayload :=
  { bookedById := userId,
    productId := item.id,
    quantity := item.quantity,
    price := item.quantity * item.discountedPrice,
    paymentMethod := "Cash" }

/-- An observable effect of the order-placement flow: a network request, a
toast notification, a console log, or the final catalog refresh. -/
inductive Event where
  | orderRequest (payload : OrderPayload)
  | stockUpdateRequest (productId : String) (availableQuantity : Int)
  | toastSuccess (msg : String)
  | toastError (msg : String)
  | logError (msg : String)
  | refreshCatalog
deriving DecidableEq

/-- `updateProduct` from map-component.tsx: issues the
`PATCH /products/update/:id` request with body
`availableQuantity = item.availableQuantity - item.quantity`; `stockOk`
models whether that request succeeds, and a failure is caught inside the
function and only logged, so it never propagates to the caller. -/
def updateProduct (item : Product) (stockOk : Bool) : List Event :=
  let req := [Event.stockUpdateRequest item.id (item.availableQuantity - item.quantity)]
  if stockOk then req else req ++ [Event.logError "Failed to update product:"]

/-- `handlePlaceOrder` from map-component.tsx as the trace of effects of one
order attempt.  `orderResp` is the outcome of the `POST /orders` request:
`Except.ok msg` carries the optional `data.message` of a successful response,
`Except.error errMsg` the optional `response.data.message` of a failed one.
On success the success toast shows the server message (or "Order placed!"),
then `updateProduct` runs, then `fetchProducts()` refreshes the catalog; on
failure only the error toast fires, with the payload message or the fallback
"Failed to place order". -/
def handlePlaceOrder (userId : String) (item : Product)
    (orderResp : Except (Option String) (Option String)) (stockOk : Bool) :
    List Event :=
  let payload := orderPayload userId item
  match orderResp with
  | Except.ok msg =>
      Event.orderRequest payload :: Event.toastSuccess (msg.getD "Order placed!") ::
        (updateProduct item stockOk ++ [Event.refreshCatalog])
  | Except.error errMsg =>
      [Event.orderRequest payload, Event.toastError (errMsg.getD "Failed to place order")]

/-- C9: the order request payload's price always equals
`quantity * discountedPrice`; in particular quantity 3 with discountedPrice
100 yields price 300. -/
theorem order_price_formula :
    (∀ (userId : String) (item : Product),
      (orderPayload userId item).price = item.quantity * item.discountedPrice) ∧
    (orderPayload "u" { pEx with quantity := 3, discountedPrice := 100 }).price = 300 := by
  constructor
  · intro userId item
    rfl
  · rfl

/-- C2: whenever the order submission succeeds (whatever message it carries),
the trace contains a stock-update request setting
`availableQuantity = availableQuantity - quantity` for the ordered product,
and the catalog refresh is the final effect — for both outcomes of the
stock-update request. -/
theorem order_success_updates_stock_then_refreshes
    (userId : String) (item : Product) (msg : Option String) (stockOk : Bool) :
    Event.stockUpdateRequest item.id (item.availableQuantity - item.quantity) ∈
      handlePlaceOrder userId item (Except.ok msg) stockOk ∧
    (handlePlaceOrder userId item (Except.ok msg) stockOk).getLast? =
      some Event.refreshCatalog := by
  cases stockOk with
  | false =>
      constructor
      · simp [handlePlaceOrder, updateProduct]
      · rfl
  | true =>
      constructor
      · simp [handlePlaceOrder, updateProduct]
      · rfl

/-- C3: whenever the order submission fails, the trace contains no
stock-update request at all (no stock mutation), no catalog refresh, and the
user-visible error toast carries the server payload's message when present
and the fallback "Failed to place order" otherwise. -/
theorem order_failure_no_stock_and_error_message
    (userId : String) (item : Product) (errMsg : Option String) (stockOk : Bool) :
    (∀ (pid : String) (qty : Int),
      Event.stockUpdateRequest pid qty ∉ handlePlaceOrder userId item (Except.error errMsg) stockOk) ∧
    Event.refreshCatalog ∉ handlePlaceOrder userId item (Except.error errMsg) stockOk ∧
    (∀ m, errMsg = some m →
      Event.toastError m ∈ handlePlaceOrder userId item (Except.error errMsg) stockOk) ∧
    (errMsg = none →
      Event.toastError "Failed to place order" ∈
        handlePlaceOrder userId item (Except.error errMsg) stockOk) := by
  refine ⟨?_, ?_, ?_, ?_⟩
  · intro pid qty
    simp [handlePlaceOrder]
  · simp [handlePlaceOrder]
  · intro m hm
    simp [handlePlaceOrder, hm]
  · intro hm
    simp [handlePlaceOrder, hm]

/-- A user document as stored by the server (`User` model fields used by the
login route); `password` holds the bcrypt hash. -/
structure StoredUser where
  id : String
  name : String
  email : String
  password : String
  role : String
  userPreferences : Option (List String)
deriving DecidableEq

/-- The `userResponse` object the login route returns on success (built
without the password). -/
structure UserResponse where
  id : String
  name : String
  email : String
  role : String
  userPreferences : List String
deriving DecidableEq

/-- The JSON body and status the login route sends back. -/
structure LoginResponse where
  status : Nat
  message : String
  user : Option UserResponse
  isLoggedIn : Option Bool
  token : Option String
deriving DecidableEq

/-- `userRouter.post /login` from the server user router.  `findOne` models
`User.findOne({ email })`, `compare` models `bcrypt.compare`, and `sign`
models `jwt.sign` on the found user.  Falsy `email`/`password` are modelled
as the empty string.  A missing user and a failed password comparison both
return status 401 with the same body. -/
def login (findOne : String → Option StoredUser) (compare : String → String → Bool)
    (sign : StoredUser → String) (email password : String) : LoginResponse :=
  if email = "" ∨ password = "" then
    { status := 400, message := "Email and password are required",
      user := none, isLoggedIn := none, token := none }
  else
    match findOne email with
    | none =>
        { status := 401, message := "Invalid email or password",
          user := none, isLoggedIn := none, token := none }
    | some user =>
        if compare password user.password = false then
          { status := 401, message := "Invalid email or password",
            user := none, isLoggedIn := none, token := none }
        else
          { status := 200, message := "Logged in successfully",
            user := some { id := user.id, name := user.name, email := user.email,
                           role := user.role,
                           userPreferences := user.userPreferences.getD [] },
            isLoggedIn := some true, token := some (sign user) }

/-- C10: with non-empty credentials, a login against a database with no user
for the email and a login against a database whose user fails the password
comparison produce byte-identical responses — status 401, message
"Invalid email or password", and no user object or token — so the response
does not reveal whether an account exists for the email. -/
theorem login_failure_indistinguishable
    (f1 f2 : String → Option StoredUser) (c1 c2 : String → String → Bool)
    (s1 s2 : StoredUser → String) (email password : String) (u : StoredUser)
    (he : email ≠ "") (hp : password ≠ "")
    (h1 : f1 email = none)
    (h2 : f2 email = some u) (hc : c2 password u.password = false) :
    login f1 c1 s1 email password = login f2 c2 s2 email password ∧
    (login f1 c1 s1 email password).status = 401 ∧
    (login f1 c1 s1 email password).message = "Invalid email or password" ∧
    (login f1 c1 s1 email password).user = none ∧
    (login f1 c1 s1 email password).token = none := by
  have hguard : ¬(email = "" ∨ password = "") := by
    rintro (h | h)
    · exact he h
    · exact hp h
  have e1 : login f1 c1 s1 email password =
      { status := 401, message := "Invalid email or password",
        user := none, isLoggedIn := none, token := none } := by
    unfold login
    rw [if_neg hguard, h1]
  have e2 : login f2 c2 s2 email password =
      { status := 401, message := "Invalid email or password",
        user := none, isLoggedIn := none, token := none } := by
    unfold login
    rw [if_neg hguard, h2]
    simp [hc]
  rw [e1, e2]
  exact ⟨rfl, rfl, rfl, rfl, rfl⟩

/-- A concrete stored user for instantiating the login theorems. -/
def uEx : StoredUser :=
  { id := "u1", name := "Asha", email := "a@b.c",
    password := "hashed", role := "buyer", userPreferences := some ["pizza"] }

/-- A database lookup finding no user. -/
def noUserDb : String → Option StoredUser :=
  fun _ => none

/-- A database lookup finding `uEx` for every email. -/
def oneUserDb : String → Option StoredUser :=
  fun _ => some uEx

/-- A bcrypt comparison that always rejects. -/
def alwaysFalseCmp : String → String → Bool :=
  fun _ _ => false

/-- A token signer returning a fixed string. -/
def fixedSign : StoredUser → String :=
  fun _ => "tok"

/-- Witness for C10 at concrete databases and credentials. -/
theorem login_failure_indistinguishable_witness :
    login noUserDb alwaysFalseCmp fixedSign "a@b.c" "pw" =
      login oneUserDb alwaysFalseCmp fixedSign "a@b.c" "pw" ∧
    (login noUserDb alwaysFalseCmp fixedSign "a@b.c" "pw").status = 401 ∧
    (login noUserDb alwaysFalseCmp fixedSign "a@b.c" "pw").message =
      "Invalid email or password" ∧
    (login noUserDb alwaysFalseCmp fixedSign "a@b.c" "pw").user = none ∧
    (login noUserDb alwaysFalseCmp fixedSign "a@b.c" "pw").token = none :=
  login_failure_indistinguishable noUserDb oneUserDb alwaysFalseCmp alwaysFalseCmp
    fixedSign fixedSign "a@b.c" "pw" uEx (by decide) (by decide) rfl rfl rfl

/-- Witness for C3 at a concrete failed order carrying the server message
"Out of stock". -/
theorem order_failure_no_stock_and_error_message_witness :
    Event.toastError "Out of stock" ∈
      handlePlaceOrder "u" pEx (Except.error (some "Out of stock")) true ∧
    (∀ (pid : String) (qty : Int),
      Event.stockUpdateRequest pid qty ∉
        handlePlaceOrder "u" pEx (Except.error (some "Out of stock")) true) :=
  ⟨(order_failure_no_stock_and_error_message "u" pEx (some "Out of stock") true).2.2.1
      "Out of stock" rfl,
   (order_failure_no_stock_and_error_message "u" pEx (some "Out of stock") true).1⟩

/-- Witness for C7 at a concrete clicked product and list. -/
theorem increment_decrement_frame_witness :
    List.Forall₂ (fun p q => sameExceptQty p q ∧ (p.id ≠ pEx.id → q = p))
      [pZero] (handleIncrement pEx [pZero]) :=
  (increment_decrement_frame pEx [pZero]).1
